import Mathlib

/-!
Shallow embedding of the apriltag-tests batch detection pipeline.

The repository has three variants, each a single Rust main.rs:
  v1 = src/detectors/kornia-apriltag-0.1.10/src/main.rs
  v2 = src/detectors/kornia-rs-apriltag-centred-coordinates/src/main.rs
  v3 = src/detectors/kornia-rs-apriltag-linefit/src/main.rs

External collaborators (image decoding, RGB-to-gray conversion, the tag
decoder) are modelled as oracles in an `Env` structure; the pipeline's own
control flow (filtering, per-family fan-out, aggregation, writing) is
translated function by function.  Side effects are made explicit as an
`Event` trace returned alongside each result.
-/

/-- Single-channel 8-bit intensity buffer (kornia `Image<u8, 1, _>`). -/
structure IntensityImage where
  width : Nat
  height : Nat
  data : List Nat
deriving DecidableEq

/-- RGB8 buffer produced by the image reader (kornia `Image<u8, 3, _>`). -/
structure RgbImage where
  width : Nat
  height : Nat
  data : List Nat
deriving DecidableEq

/-- kornia `ImageSize`. -/
structure ImageSize where
  width : Nat
  height : Nat
deriving DecidableEq

/-- kornia_apriltag `TagFamilyKind` (the decoder's family selector). -/
inductive TagFamilyKind where
  | Tag16H5
  | Tag36H11
  | Tag36H10
  | Tag25H9
  | TagCircle21H7
  | TagCircle49H12
  | TagCustom48H12
  | TagStandard41H12
  | TagStandard52H13
  | Custom (data : Nat)
deriving DecidableEq

/-- Rust `struct Corner` (coordinates modelled as exact rationals in place of f32). -/
structure Corner where
  x : ℚ
  y : ℚ
deriving DecidableEq

/-- The decoder's quad: four corner points, indexed 0..3 as in
`det.quad.corners[i]`. -/
structure Quad where
  corners : Fin 4 → Corner

/-- A raw detection as returned by `decoder.decode` (fields used by the
pipeline: `id`, `tag_family_kind`, `quad`).  `id` is a u16 in the source;
its numeric range plays no role here, so it is a `Nat`. -/
structure RawDetection where
  id : Nat
  tag_family_kind : TagFamilyKind
  quad : Quad

/-- Rust `struct Detection`. -/
structure Detection where
  tag_id : Nat
  tag_family : String
  corners : List Corner
deriving DecidableEq

/-- Rust `struct DetectionResult` (v1/v2 shape, without timings). -/
structure DetectionResult where
  image : String
  detections : List Detection
deriving DecidableEq

/-- Rust `struct Manifest`. -/
structure Manifest where
  supported_families : List String
deriving DecidableEq

/-- Rust `fn tag_family_to_string` (identical in all three variants). -/
def tag_family_to_string (kind : TagFamilyKind) : String :=
  match kind with
  | TagFamilyKind.Tag16H5 => "tag16h5"
  | TagFamilyKind.Tag36H11 => "tag36h11"
  | TagFamilyKind.Tag36H10 => "tag36h10"
  | TagFamilyKind.Tag25H9 => "tag25h9"
  | TagFamilyKind.TagCircle21H7 => "tagCircle21h7"
  | TagFamilyKind.TagCircle49H12 => "tagCircle49h12"
  | TagFamilyKind.TagCustom48H12 => "tagCustom48h12"
  | TagFamilyKind.TagStandard41H12 => "tagStandard41h12"
  | TagFamilyKind.TagStandard52H13 => "tagStandard52h13"
  | TagFamilyKind.Custom _ => "custom"

/-- Rust `fn get_supported_families` (identical in all three variants). -/
def get_supported_families : List (String × TagFamilyKind) :=
  [ ("tag36h11", TagFamilyKind.Tag36H11),
    ("tag36h10", TagFamilyKind.Tag36H10),
    ("tag25h9", TagFamilyKind.Tag25H9),
    ("tag16h5", TagFamilyKind.Tag16H5),
    ("tagCircle21h7", TagFamilyKind.TagCircle21H7),
    ("tagCircle49h12", TagFamilyKind.TagCircle49H12),
    ("tagCustom48h12", TagFamilyKind.TagCustom48H12),
    ("tagStandard41h12", TagFamilyKind.TagStandard41H12),
    ("tagStandard52h13", TagFamilyKind.TagStandard52H13) ]

/-- The per-detection conversion loop body shared by all variants: builds the
`corners` vector from `det.quad.corners[0] .. [3]` in that order and resolves
the family selector through `tag_family_to_string`. -/
def convertDetection (det : RawDetection) : Detection :=
  { tag_id := det.id
    tag_family := tag_family_to_string det.tag_family_kind
    corners :=
      [ det.quad.corners 0, det.quad.corners 1,
        det.quad.corners 2, det.quad.corners 3 ] }

/-- A direct entry of the input directory, as seen through Rust `Path`
accessors: `file_stem`, `extension`, `is_file`.  The full file name is
`stem` or `stem.ext`. -/
structure DirEntry where
  stem : String
  ext : Option String
  isFile : Bool
deriving DecidableEq

/-- Rust `path.file_name()` for an entry of the form stem[.ext]. -/
def entryFileName (e : DirEntry) : String :=
  match e.ext with
  | some x => e.stem ++ "." ++ x
  | none => e.stem

/-- Rust `char` lowercasing restricted to ASCII, which is all the pipeline
compares against (the accepted extension sets are ASCII literals). -/
def asciiLower (c : Char) : Char :=
  if 'A' ≤ c ∧ c ≤ 'Z' then Char.ofNat (c.toNat + 32) else c

/-- Rust `str::to_lowercase`, applied characterwise (ASCII model). -/
def lowerString (s : String) : String :=
  ⟨s.data.map asciiLower⟩

/-- Rust `path.extension().and_then(|e| e.to_str()).unwrap_or("").to_lowercase()`. -/
def entryExt (e : DirEntry) : String :=
  lowerString (e.ext.getD "")

/-- v1 file filter: `if !path.is_file() { continue }` and
`if ext != "jpg" && ext != "jpeg" && ext != "png" { continue }`. -/
def accepts_v1 (e : DirEntry) : Bool :=
  e.isFile && !(entryExt e != "jpg" && entryExt e != "jpeg" && entryExt e != "png")

/-- v2 file filter: `if ext == "jpg" || ext == "jpeg" || ext == "png" { push }`. -/
def accepts_v2 (e : DirEntry) : Bool :=
  e.isFile && (entryExt e == "jpg" || entryExt e == "jpeg" || entryExt e == "png")

/-- v3 file filter: `if ext == "jpg" || ext == "jpeg" { push }`. -/
def accepts_v3 (e : DirEntry) : Bool :=
  e.isFile && (entryExt e == "jpg" || entryExt e == "jpeg")

/-- Contents an output write can carry. -/
inductive FileContent where
  | result (r : DetectionResult)
  | manifest (m : Manifest)
deriving DecidableEq

/-- Observable pipeline events: an image-file read, the creation of an
intensity buffer from it, a decode call (recording which buffer it reads),
and a file write into the output directory. -/
inductive Event where
  | loadRgb (file : String)
  | makeIntensity (file : String) (img : IntensityImage)
  | decodeCall (family : String) (size : ImageSize) (img : IntensityImage)
  | write (file : String) (content : FileContent)
deriving DecidableEq

/-- Oracles for the external collaborators.  `loadRgb` is the image reader
(`read_image_any_rgb8` / `read_image_jpeg_rgb8`); `gray` is the RGB-to-gray
conversion chain producing the intensity buffer; `decode` is decoder
construction (`DecodeTagsConfig::new` + `AprilTagDecoder::new(config, size)`)
followed by `decoder.decode(img)`, collapsed into one fallible call. -/
structure Env where
  loadRgb : String → Except String RgbImage
  gray : RgbImage → Except String IntensityImage
  decode : TagFamilyKind → ImageSize → IntensityImage → Except String (List RawDetection)

/-- v1 per-family loop inside `process_image`: for each `(family_name,
family_kind)` in order, build a decoder for the image's size, decode the
shared gray buffer, and append the converted detections. -/
def detectLoop_v1 (env : Env) (img : IntensityImage) :
    List (String × TagFamilyKind) → List Event × Except String (List Detection)
  | [] => ([], Except.ok [])
  | (family_name, family_kind) :: rest =>
    match env.decode family_kind ⟨img.width, img.height⟩ img with
    | Except.error _ =>
        ([Event.decodeCall family_name ⟨img.width, img.height⟩ img],
         Except.error ("Failed to decode tags for family " ++ family_name))
    | Except.ok dets =>
        match detectLoop_v1 env img rest with
        | (tr, Except.error m) =>
            (Event.decodeCall family_name ⟨img.width, img.height⟩ img :: tr,
             Except.error m)
        | (tr, Except.ok tail) =>
            (Event.decodeCall family_name ⟨img.width, img.height⟩ img :: tr,
             Except.ok (dets.map convertDetection ++ tail))

/-- v1 `fn process_image`: load the image, convert it once to a single gray
buffer, then run every family against that buffer. -/
def process_image_v1 (env : Env) (e : DirEntry)
    (families : List (String × TagFamilyKind)) :
    List Event × Except String DetectionResult :=
  let image_name := entryFileName e
  match env.loadRgb image_name with
  | Except.error _ => ([Event.loadRgb image_name], Except.error "Failed to load image")
  | Except.ok rgb =>
    match env.gray rgb with
    | Except.error m => ([Event.loadRgb image_name], Except.error m)
    | Except.ok img =>
      match detectLoop_v1 env img families with
      | (tr, Except.error m) =>
          (Event.loadRgb image_name :: Event.makeIntensity image_name img :: tr,
           Except.error m)
      | (tr, Except.ok dets) =>
          (Event.loadRgb image_name :: Event.makeIntensity image_name img :: tr,
           Except.ok { image := image_name, detections := dets })

/-- v1 main loop over directory entries: skip non-accepted entries, process
each accepted file, write its result as `<stem>.json`, count it.  Any
per-file error propagates with `?`, aborting the loop. -/
def loop_v1 (env : Env) (families : List (String × TagFamilyKind)) :
    List DirEntry → List Event × Except String Nat
  | [] => ([], Except.ok 0)
  | e :: rest =>
    if accepts_v1 e then
      match process_image_v1 env e families with
      | (tr, Except.error m) => (tr, Except.error m)
      | (tr, Except.ok result) =>
        match loop_v1 env families rest with
        | (tr2, Except.error m) =>
            (tr ++ Event.write (e.stem ++ ".json") (FileContent.result result) :: tr2,
             Except.error m)
        | (tr2, Except.ok n) =>
            (tr ++ Event.write (e.stem ++ ".json") (FileContent.result result) :: tr2,
             Except.ok (n + 1))
    else loop_v1 env families rest

/-- Names of the registry's families, as written into the manifest. -/
def supported_family_names : List String :=
  get_supported_families.map Prod.fst

/-- v1 `fn main` after argument/directory validation: run the image loop,
then write `manifest.json` once.  The returned `Nat` is the processed count
reported on success. -/
def run_v1 (env : Env) (listing : List DirEntry) :
    List Event × Except String Nat :=
  match loop_v1 env get_supported_families listing with
  | (tr, Except.error m) => (tr, Except.error m)
  | (tr, Except.ok n) =>
      (tr ++ [Event.write "manifest.json"
                (FileContent.manifest { supported_families := supported_family_names })],
       Except.ok n)

/-- Process exit code of an `anyhow::Result` main: 0 on Ok, nonzero on Err. -/
def exitCode : Except String Nat → Nat
  | Except.ok _ => 0
  | Except.error _ => 1

/-- v2 `fn detect_in_image`: reload and re-convert the image from disk for
this one family, build a fresh decoder at the batch-wide `size` fixed from
the first image, decode, and convert. -/
def detect_in_image_v2 (env : Env) (file : String) (family_kind : TagFamilyKind)
    (size : ImageSize) : List Event × Except String (List Detection) :=
  match env.loadRgb file with
  | Except.error _ => ([Event.loadRgb file], Except.error "Failed to load image")
  | Except.ok rgb =>
    match env.gray rgb with
    | Except.error m => ([Event.loadRgb file], Except.error m)
    | Except.ok img =>
      match env.decode family_kind size img with
      | Except.error _ =>
          ([Event.loadRgb file, Event.makeIntensity file img,
            Event.decodeCall (tag_family_to_string family_kind) size img],
           Except.error ("Failed to decode tags for family "
             ++ tag_family_to_string family_kind))
      | Except.ok dets =>
          ([Event.loadRgb file, Event.makeIntensity file img,
            Event.decodeCall (tag_family_to_string family_kind) size img],
           Except.ok (dets.map convertDetection))

/-- v2 inner family loop for one image: `for (family_name, family_kind) in
&families { detect_in_image(...)? ; extend }`. -/
def famLoop_v2 (env : Env) (file : String) (size : ImageSize) :
    List (String × TagFamilyKind) → List Event × Except String (List Detection)
  | [] => ([], Except.ok [])
  | (_, family_kind) :: rest =>
    match detect_in_image_v2 env file family_kind size with
    | (tr, Except.error m) => (tr, Except.error m)
    | (tr, Except.ok dets) =>
      match famLoop_v2 env file size rest with
      | (tr2, Except.error m) => (tr ++ tr2, Except.error m)
      | (tr2, Except.ok tail) => (tr ++ tr2, Except.ok (dets ++ tail))

/-- v2 detection phase over all collected image paths: fills
`all_image_detections` keyed by path, in path order, before anything is
written. -/
def imgLoop_v2 (env : Env) (size : ImageSize)
    (families : List (String × TagFamilyKind)) :
    List DirEntry → List Event × Except String (List (DirEntry × List Detection))
  | [] => ([], Except.ok [])
  | e :: rest =>
    match famLoop_v2 env (entryFileName e) size families with
    | (tr, Except.error m) => (tr, Except.error m)
    | (tr, Except.ok dets) =>
      match imgLoop_v2 env size families rest with
      | (tr2, Except.error m) => (tr ++ tr2, Except.error m)
      | (tr2, Except.ok tail) => (tr ++ tr2, Except.ok ((e, dets) :: tail))

/-- v2 writing phase: one `<stem>.json` write per collected image path, in
order, incrementing the processed count each time. -/
def writeLoop_v2 : List (DirEntry × List Detection) → List Event × Nat
  | [] => ([], 0)
  | (e, dets) :: rest =>
    let r : DetectionResult := { image := entryFileName e, detections := dets }
    match writeLoop_v2 rest with
    | (tr, n) => (Event.write (e.stem ++ ".json") (FileContent.result r) :: tr, n + 1)

/-- v2 `fn main` after validation: filter the listing, return `Ok(())`
immediately (writing nothing, not even the manifest) when no image was
accepted; otherwise probe the first image for the batch-wide decoder size,
run the detection phase, then the writing phase, then write the manifest. -/
def run_v2 (env : Env) (listing : List DirEntry) :
    List Event × Except String Nat :=
  match listing.filter accepts_v2 with
  | [] => ([], Except.ok 0)
  | e0 :: restPaths =>
    match env.loadRgb (entryFileName e0) with
    | Except.error _ =>
        ([Event.loadRgb (entryFileName e0)], Except.error "Failed to load first image")
    | Except.ok rgb0 =>
      match imgLoop_v2 env ⟨rgb0.width, rgb0.height⟩ get_supported_families
          (e0 :: restPaths) with
      | (tr, Except.error m) =>
          (Event.loadRgb (entryFileName e0) :: tr, Except.error m)
      | (tr, Except.ok pairs) =>
        match writeLoop_v2 pairs with
        | (wtr, n) =>
            (Event.loadRgb (entryFileName e0) :: tr ++ wtr
               ++ [Event.write "manifest.json"
                     (FileContent.manifest
                        { supported_families := supported_family_names })],
             Except.ok n)

/-- Rust `struct FamilyTiming` (milliseconds modelled as exact rationals). -/
structure FamilyTiming where
  family : String
  initialization_ms : ℚ
  detection_ms : ℚ
deriving DecidableEq

/-- Rust `struct Timings`. -/
structure Timings where
  image_load_ms : ℚ
  total_detection_ms : ℚ
  family_timings : List FamilyTiming
deriving DecidableEq

/-- v3 `struct DetectionResult`, with mandatory timings. -/
structure TimedDetectionResult where
  image : String
  detections : List Detection
  timings : Timings
deriving DecidableEq

/-- v3 `struct DetectionWithTiming`. -/
structure DetectionWithTiming where
  detections : List Detection
  family_timing : FamilyTiming

/-- The durations `Instant::now()/elapsed` would observe, as oracles:
`loadMs` for the image-load phase, and per-family initialization and
detection durations. -/
structure TimingOracle where
  loadMs : ℚ
  initMs : String → ℚ
  detectMs : String → ℚ

/-- v3 `fn detect_in_image`: time decoder construction and the decode call
on the shared gray buffer, returning the converted detections together with
this family's timing record. -/
def detect_in_image_v3 (env : Env) (t : TimingOracle) (img : IntensityImage)
    (family_name : String) (family_kind : TagFamilyKind) :
    Except String DetectionWithTiming :=
  match env.decode family_kind ⟨img.width, img.height⟩ img with
  | Except.error _ =>
      Except.error ("Failed to decode tags for family " ++ family_name)
  | Except.ok dets =>
      Except.ok
        { detections := dets.map convertDetection
          family_timing :=
            { family := family_name
              initialization_ms := t.initMs family_name
              detection_ms := t.detectMs family_name } }

/-- v3 per-family loop inside `process_image`, with its three accumulators:
`all_detections`, `family_timings`, and the running
`total_detection_ms += initialization_ms + detection_ms`. -/
def famLoop_v3 (env : Env) (t : TimingOracle) (img : IntensityImage) :
    List (String × TagFamilyKind) → List Detection → List FamilyTiming → ℚ →
    Except String (List Detection × List FamilyTiming × ℚ)
  | [], ds, fts, tot => Except.ok (ds, fts, tot)
  | (family_name, family_kind) :: rest, ds, fts, tot =>
    match detect_in_image_v3 env t img family_name family_kind with
    | Except.error m => Except.error m
    | Except.ok r =>
        famLoop_v3 env t img rest (ds ++ r.detections) (fts ++ [r.family_timing])
          (tot + (r.family_timing.initialization_ms + r.family_timing.detection_ms))

/-- v3 `fn process_image`: time the load phase (read + gray conversion) as
one measurement, then run the family loop and package detections and
timings into the result. -/
def process_image_v3 (env : Env) (t : TimingOracle) (e : DirEntry)
    (families : List (String × TagFamilyKind)) :
    Except String TimedDetectionResult :=
  let image_name := entryFileName e
  match env.loadRgb image_name with
  | Except.error _ => Except.error "Failed to load image"
  | Except.ok rgb =>
    match env.gray rgb with
    | Except.error m => Except.error m
    | Except.ok img =>
      match famLoop_v3 env t img families [] [] 0 with
      | Except.error m => Except.error m
      | Except.ok (ds, fts, tot) =>
          Except.ok
            { image := image_name
              detections := ds
              timings :=
                { image_load_ms := t.loadMs
                  total_detection_ms := tot
                  family_timings := fts } }

/-- Contents of a v3 output write.  Re-using `FileContent.result` would lose
the timings, so v3's trace records only the write's file name here and the
result is kept alongside; for the claims below only names and counts of v3
writes matter. -/
def resultName (e : DirEntry) : String := e.stem ++ ".json"

/-- v3 main loop over accepted paths: process each image, write its result,
count it; errors propagate. -/
def runLoop_v3 (env : Env) (t : TimingOracle) :
    List DirEntry → List String × Except String Nat
  | [] => ([], Except.ok 0)
  | e :: rest =>
    match process_image_v3 env t e get_supported_families with
    | Except.error m => ([], Except.error m)
    | Except.ok _ =>
      match runLoop_v3 env t rest with
      | (ws, Except.error m) => (resultName e :: ws, Except.error m)
      | (ws, Except.ok n) => (resultName e :: ws, Except.ok (n + 1))

/-- v3 `fn main` after validation: filter to jpg/jpeg, return `Ok(())`
with no writes at all (no manifest) when nothing was accepted, otherwise
run the loop and then write the manifest once.  The first component lists
the names of files written, in order. -/
def run_v3 (env : Env) (t : TimingOracle) (listing : List DirEntry) :
    List String × Except String Nat :=
  match listing.filter accepts_v3 with
  | [] => ([], Except.ok 0)
  | e0 :: restPaths =>
    match runLoop_v3 env t (e0 :: restPaths) with
    | (ws, Except.error m) => (ws, Except.error m)
    | (ws, Except.ok n) => (ws ++ ["manifest.json"], Except.ok n)

deriving instance DecidableEq for Except

/-- A quad whose corner i sits at (i, 0): distinct corners, used to observe
corner-order preservation on concrete runs. -/
def sampleQuad : Quad :=
  { corners := fun i => { x := (i.val : ℚ), y := 0 } }

/-- One raw detection with id 5 of the given family, on `sampleQuad`. -/
def sampleRaw (kind : TagFamilyKind) : RawDetection :=
  { id := 5, tag_family_kind := kind, quad := sampleQuad }

/-- Environment whose oracles all succeed and whose decoder emits exactly one
detection (id 5 on `sampleQuad`) for every family it is asked about. -/
def okEnv : Env :=
  { loadRgb := fun _ => Except.ok { width := 1, height := 1, data := [0] }
    gray := fun _ => Except.ok { width := 1, height := 1, data := [0] }
    decode := fun kind _ _ => Except.ok [sampleRaw kind] }

/-- Environment whose oracles all succeed and whose decoder finds nothing. -/
def emptyEnv : Env :=
  { loadRgb := fun _ => Except.ok { width := 1, height := 1, data := [0] }
    gray := fun _ => Except.ok { width := 1, height := 1, data := [0] }
    decode := fun _ _ _ => Except.ok [] }

/-- The file `photo.jpg` as a directory entry. -/
def jpgEntry : DirEntry := { stem := "photo", ext := some "jpg", isFile := true }

/-- The file `photo.png` as a directory entry: same stem as `jpgEntry`. -/
def pngEntry : DirEntry := { stem := "photo", ext := some "png", isFile := true }

example : accepts_v1 jpgEntry = true := by decide
example : accepts_v1 (DirEntry.mk "a" (some "JPG") true) = true := by decide
example : accepts_v1 (DirEntry.mk "a" (some "bmp") true) = false := by decide
example : accepts_v3 pngEntry = false := by decide
example : (process_image_v1 okEnv jpgEntry get_supported_families).2 =
    Except.ok { image := "photo.jpg",
                detections := get_supported_families.map
                  (fun p => convertDetection (sampleRaw p.2)) } := by decide
example : (run_v1 emptyEnv [jpgEntry, pngEntry]).2 = Except.ok 2 := by decide
example : run_v2 okEnv [] = ([], Except.ok 0) := rfl

/-- Whether an event creates an intensity buffer. -/
def isMakeIntensity : Event → Bool
  | Event.makeIntensity _ _ => true
  | _ => false

/-- Whether an event writes a manifest file. -/
def isManifestWrite : Event → Bool
  | Event.write _ (FileContent.manifest _) => true
  | _ => false

/-- The name a per-image result write targets, if the event is one. -/
def resultNameOf : Event → Option String
  | Event.write n (FileContent.result _) => some n
  | _ => none

/-- Number of intensity-buffer creations recorded in a trace. -/
def mkIntCount (tr : List Event) : Nat :=
  (tr.filter isMakeIntensity).length

/-- Names of the per-image result files written, in write order. -/
def resultWriteNames (tr : List Event) : List String :=
  tr.filterMap resultNameOf

/-- Number of manifest writes recorded in a trace. -/
def manifestWriteCount (tr : List Event) : Nat :=
  (tr.filter isManifestWrite).length

theorem detectLoop_v1_trace (env : Env) (img : IntensityImage) :
    ∀ (fams : List (String × TagFamilyKind)) (ev : Event),
      ev ∈ (detectLoop_v1 env img fams).1 →
      ∃ n, ev = Event.decodeCall n ⟨img.width, img.height⟩ img := by
  intro fams
  induction fams with
  | nil => intro ev h; simp [detectLoop_v1] at h
  | cons p rest ih =>
    intro ev h
    obtain ⟨name, kind⟩ := p
    cases hdec : env.decode kind ⟨img.width, img.height⟩ img with
    | error m =>
      simp only [detectLoop_v1, hdec] at h
      simp at h
      exact ⟨name, h⟩
    | ok dets =>
      simp only [detectLoop_v1, hdec] at h
      cases hrec : detectLoop_v1 env img rest with
      | mk tr2 res2 =>
        rw [hrec] at h
        cases res2 with
        | error m =>
          simp at h
          rcases h with h | h
          · exact ⟨name, h⟩
          · exact ih ev (by rw [hrec]; exact h)
        | ok tail =>
          simp at h
          rcases h with h | h
          · exact ⟨name, h⟩
          · exact ih ev (by rw [hrec]; exact h)

theorem process_image_v1_trace (env : Env) (e : DirEntry) (rgb : RgbImage)
    (img : IntensityImage)
    (hload : env.loadRgb (entryFileName e) = Except.ok rgb)
    (hgray : env.gray rgb = Except.ok img) (fams : List (String × TagFamilyKind)) :
    (process_image_v1 env e fams).1 =
      Event.loadRgb (entryFileName e) :: Event.makeIntensity (entryFileName e) img
        :: (detectLoop_v1 env img fams).1 := by
  simp only [process_image_v1, hload, hgray]
  cases hdl : detectLoop_v1 env img fams with
  | mk tr res => cases res <;> rfl

theorem detectLoop_v1_ok_mem (env : Env) (img : IntensityImage) :
    ∀ (fams : List (String × TagFamilyKind)) (tr : List Event) (ds : List Detection),
      detectLoop_v1 env img fams = (tr, Except.ok ds) →
      ∀ d ∈ ds, ∃ raw : RawDetection, d = convertDetection raw := by
  intro fams
  induction fams with
  | nil =>
    intro tr ds h d hd
    simp [detectLoop_v1] at h
    rw [h.2] at hd
    simp at hd
  | cons p rest ih =>
    intro tr ds h d hd
    obtain ⟨name, kind⟩ := p
    cases hdec : env.decode kind ⟨img.width, img.height⟩ img with
    | error m => simp [detectLoop_v1, hdec] at h
    | ok dets =>
      simp only [detectLoop_v1, hdec] at h
      cases hrec : detectLoop_v1 env img rest with
      | mk tr2 res2 =>
        rw [hrec] at h
        cases res2 with
        | error m => simp at h
        | ok tail =>
          simp at h
          rw [← h.2] at hd
          rcases List.mem_append.mp hd with hmem | hmem
          · obtain ⟨raw, _, hraw⟩ := List.mem_map.mp hmem
            exact ⟨raw, hraw.symm⟩
          · exact ih tr2 tail hrec d hmem

theorem process_image_v1_ok_mem (env : Env) (e : DirEntry)
    (fams : List (String × TagFamilyKind)) (tr : List Event) (r : DetectionResult)
    (h : process_image_v1 env e fams = (tr, Except.ok r)) :
    ∀ d ∈ r.detections, ∃ raw : RawDetection, d = convertDetection raw := by
  cases hload : env.loadRgb (entryFileName e) with
  | error m => simp [process_image_v1, hload] at h
  | ok rgb =>
    cases hgray : env.gray rgb with
    | error m => simp [process_image_v1, hload, hgray] at h
    | ok img =>
      simp only [process_image_v1, hload, hgray] at h
      cases hdl : detectLoop_v1 env img fams with
      | mk tr2 res2 =>
        rw [hdl] at h
        cases res2 with
        | error m => simp at h
        | ok ds =>
          simp at h
          intro d hd
          apply detectLoop_v1_ok_mem env img fams tr2 ds hdl
          have : r.detections = ds := by rw [← h.2]
          rw [this] at hd
          exact hd

/-- When every family's decode call succeeds, the v1 family loop returns
exactly one decode event per family in registry order, and the concatenation,
in that same order, of each family's emitted detections mapped one-for-one
through `convertDetection`. -/
theorem detectLoop_v1_emit (env : Env) (img : IntensityImage)
    (emit : String × TagFamilyKind → List RawDetection) :
    ∀ fams : List (String × TagFamilyKind),
      (∀ p ∈ fams, env.decode p.2 ⟨img.width, img.height⟩ img = Except.ok (emit p)) →
      detectLoop_v1 env img fams =
        (fams.map (fun p => Event.decodeCall p.1 ⟨img.width, img.height⟩ img),
         Except.ok (fams.flatMap (fun p => (emit p).map convertDetection))) := by
  intro fams
  induction fams with
  | nil => intro _; rfl
  | cons p rest ih =>
    intro hall
    obtain ⟨name, kind⟩ := p
    have hp := hall (name, kind) (List.mem_cons_self _ _)
    have hrest := ih fun q hq => hall q (List.mem_cons_of_mem _ hq)
    simp only [detectLoop_v1, hp, hrest]
    simp

/-- Claim C1: in every written DetectionResult, each Detection's corners
sequence has exactly 4 entries, and they are the external decoder's quad
corners `corners[0] .. corners[3]` (0 = bottom-left, 1 = bottom-right,
2 = top-right, 3 = top-left) passed through unchanged: every detection in a
v1 `process_image` result arises from the one-for-one conversion
`convertDetection`, which copies the four corners in index order. -/
theorem claim_C1 :
    (∀ det : RawDetection,
      (convertDetection det).corners.length = 4
      ∧ (convertDetection det).corners =
          [det.quad.corners 0, det.quad.corners 1,
           det.quad.corners 2, det.quad.corners 3])
    ∧ ∀ (env : Env) (e : DirEntry) (fams : List (String × TagFamilyKind))
        (tr : List Event) (r : DetectionResult),
        process_image_v1 env e fams = (tr, Except.ok r) →
        ∀ d ∈ r.detections,
          d.corners.length = 4 ∧ ∃ raw : RawDetection, d = convertDetection raw := by
  constructor
  · intro det; exact ⟨rfl, rfl⟩
  · intro env e fams tr r h d hd
    obtain ⟨raw, hraw⟩ := process_image_v1_ok_mem env e fams tr r h d hd
    exact ⟨by rw [hraw]; rfl, raw, hraw⟩

/-- The first detection the all-ok environment produces for `photo.jpg`:
family tag36h11, id 5, corners straight from `sampleQuad`. -/
def c1d0 : Detection :=
  { tag_id := 5, tag_family := "tag36h11"
    corners := [{ x := 0, y := 0 }, { x := 1, y := 0 },
                { x := 2, y := 0 }, { x := 3, y := 0 }] }

theorem claim_C1_witness : c1d0.corners.length = 4 :=
  (claim_C1.2 okEnv jpgEntry get_supported_families
    (process_image_v1 okEnv jpgEntry get_supported_families).1
    { image := "photo.jpg"
      detections := get_supported_families.map (fun p => convertDetection (sampleRaw p.2)) }
    (by decide) c1d0 (by decide)).1

/-- Claim C3, as amended: resolving a raw decoder family selector is total
over all selectors.  Each of the nine registry selectors resolves to its
registry stable name; the non-registry `Custom` selector resolves to the
fixed string "custom" — a silent default, not an unexpected-family error —
so a resolved name is either a registry stable name or "custom". -/
theorem claim_C3 :
    (∀ p ∈ get_supported_families, tag_family_to_string p.2 = p.1)
    ∧ (∀ n : Nat, tag_family_to_string (TagFamilyKind.Custom n) = "custom")
    ∧ (∀ kind : TagFamilyKind,
        tag_family_to_string kind ∈ supported_family_names
        ∨ tag_family_to_string kind = "custom") := by
  refine ⟨by decide, fun n => rfl, ?_⟩
  intro kind
  cases kind <;> first | (right ; rfl) | (left ; decide)

/-- Claim C3 counterexample: `Custom 0` corresponds to no registry entry,
yet `tag_family_to_string` maps it to "custom" instead of producing an
error, and "custom" is not one of the registry's stable names; a detection
carrying this selector is converted with `tag_family = "custom"`. -/
theorem claim_C3_counterexample :
    tag_family_to_string (TagFamilyKind.Custom 0) = "custom"
    ∧ get_supported_families.all
        (fun p => decide (p.2 ≠ TagFamilyKind.Custom 0)) = true
    ∧ "custom" ∉ supported_family_names
    ∧ (convertDetection (sampleRaw (TagFamilyKind.Custom 0))).tag_family = "custom" :=
  ⟨rfl, by decide, by decide, rfl⟩

theorem claim_C3_witness :
    tag_family_to_string TagFamilyKind.Tag36H11 = "tag36h11"
    ∧ tag_family_to_string (TagFamilyKind.Custom 7) = "custom" :=
  ⟨claim_C3.1 ("tag36h11", TagFamilyKind.Tag36H11) (by decide), claim_C3.2.1 7⟩

theorem detect_in_image_v2_ok (env : Env) (file : String) (kind : TagFamilyKind)
    (size : ImageSize) (rgb : RgbImage) (img : IntensityImage)
    (dets : List RawDetection)
    (hload : env.loadRgb file = Except.ok rgb)
    (hgray : env.gray rgb = Except.ok img)
    (hdec : env.decode kind size img = Except.ok dets) :
    detect_in_image_v2 env file kind size =
      ([Event.loadRgb file, Event.makeIntensity file img,
        Event.decodeCall (tag_family_to_string kind) size img],
       Except.ok (dets.map convertDetection)) := by
  simp [detect_in_image_v2, hload, hgray, hdec]

/-- v2 analogue of `detectLoop_v1_emit`: when every oracle call succeeds, the
per-image family loop returns the families' emissions concatenated in
registry order, each mapped one-for-one through `convertDetection`. -/
theorem famLoop_v2_emit (env : Env) (file : String) (size : ImageSize)
    (rgb : RgbImage) (img : IntensityImage)
    (emit : String × TagFamilyKind → List RawDetection)
    (hload : env.loadRgb file = Except.ok rgb)
    (hgray : env.gray rgb = Except.ok img) :
    ∀ fams : List (String × TagFamilyKind),
      (∀ p ∈ fams, env.decode p.2 size img = Except.ok (emit p)) →
      (famLoop_v2 env file size fams).2 =
        Except.ok (fams.flatMap (fun p => (emit p).map convertDetection)) := by
  intro fams
  induction fams with
  | nil => intro _; rfl
  | cons p rest ih =>
    intro hall
    obtain ⟨name, kind⟩ := p
    have hp := hall (name, kind) (List.mem_cons_self _ _)
    have hrest := ih fun q hq => hall q (List.mem_cons_of_mem _ hq)
    simp only [famLoop_v2, detect_in_image_v2_ok env file kind size rgb img _ hload hgray hp]
    cases hfl : famLoop_v2 env file size rest with
    | mk tr2 res2 =>
      rw [hfl] at hrest
      cases res2 with
      | error m => simp at hrest
      | ok tail => simp at hrest; simp [hrest]

/-- Claim C4: for every processed image, the detections sequence is ordered
by family in registry order and, within each family, by decoder emission
order: under succeeding oracles the result is literally the registry-order
concatenation of each family's emissions mapped in order (so no resorting by
tag id or position is possible).  Stated for v1's `process_image` and v2's
per-image family loop. -/
theorem claim_C4 :
    (∀ (env : Env) (e : DirEntry) (rgb : RgbImage) (img : IntensityImage)
       (emit : String × TagFamilyKind → List RawDetection),
       env.loadRgb (entryFileName e) = Except.ok rgb →
       env.gray rgb = Except.ok img →
       (∀ p ∈ get_supported_families,
          env.decode p.2 ⟨img.width, img.height⟩ img = Except.ok (emit p)) →
       (process_image_v1 env e get_supported_families).2 =
         Except.ok { image := entryFileName e
                     detections := get_supported_families.flatMap
                       (fun p => (emit p).map convertDetection) })
    ∧ (∀ (env : Env) (file : String) (size : ImageSize) (rgb : RgbImage)
         (img : IntensityImage) (emit : String × TagFamilyKind → List RawDetection),
         env.loadRgb file = Except.ok rgb →
         env.gray rgb = Except.ok img →
         (∀ p ∈ get_supported_families, env.decode p.2 size img = Except.ok (emit p)) →
         (famLoop_v2 env file size get_supported_families).2 =
           Except.ok (get_supported_families.flatMap
             (fun p => (emit p).map convertDetection))) := by
  constructor
  · intro env e rgb img emit hload hgray hdec
    simp [process_image_v1, hload, hgray,
      detectLoop_v1_emit env img emit get_supported_families hdec]
  · intro env file size rgb img emit hload hgray hdec
    exact famLoop_v2_emit env file size rgb img emit hload hgray
      get_supported_families hdec

theorem claim_C4_witness :
    (process_image_v1 okEnv jpgEntry get_supported_families).2 =
      Except.ok { image := entryFileName jpgEntry
                  detections := get_supported_families.flatMap
                    (fun p => ([sampleRaw p.2].map convertDetection)) } :=
  claim_C4.1 okEnv jpgEntry { width := 1, height := 1, data := [0] }
    { width := 1, height := 1, data := [0] }
    (fun p => [sampleRaw p.2]) rfl rfl (fun _ _ => rfl)

/-- The v3 family loop grows `family_timings` by appending, and its running
total is exactly the sum of `initialization_ms + detection_ms` over the
appended records. -/
theorem famLoop_v3_spec (env : Env) (t : TimingOracle) (img : IntensityImage) :
    ∀ (fams : List (String × TagFamilyKind)) (ds : List Detection)
      (fts : List FamilyTiming) (tot : ℚ) (D : List Detection)
      (F : List FamilyTiming) (T : ℚ),
      famLoop_v3 env t img fams ds fts tot = Except.ok (D, F, T) →
      ∃ F2 : List FamilyTiming, F = fts ++ F2
        ∧ T = tot + (F2.map (fun ft => ft.initialization_ms + ft.detection_ms)).sum := by
  intro fams
  induction fams with
  | nil =>
    intro ds fts tot D F T h
    simp only [famLoop_v3, Except.ok.injEq, Prod.mk.injEq] at h
    obtain ⟨_, hfts, htot⟩ := h
    refine ⟨[], ?_, ?_⟩
    · rw [← hfts]; simp
    · rw [← htot]; simp
  | cons p rest ih =>
    intro ds fts tot D F T h
    obtain ⟨name, kind⟩ := p
    cases hdet : detect_in_image_v3 env t img name kind with
    | error m => simp [famLoop_v3, hdet] at h
    | ok r =>
      simp only [famLoop_v3, hdet] at h
      obtain ⟨F2, hF, hT⟩ := ih _ _ _ _ _ _ h
      refine ⟨r.family_timing :: F2, ?_, ?_⟩
      · rw [hF]; simp
      · rw [hT]; simp; ring

/-- The v3 family loop never looks at the load-phase measurement. -/
theorem famLoop_v3_loadMs (env : Env) (img : IntensityImage)
    (q q' : ℚ) (i d : String → ℚ) :
    ∀ (fams : List (String × TagFamilyKind)) (ds : List Detection)
      (fts : List FamilyTiming) (tot : ℚ),
      famLoop_v3 env ⟨q, i, d⟩ img fams ds fts tot =
        famLoop_v3 env ⟨q', i, d⟩ img fams ds fts tot := by
  intro fams
  induction fams with
  | nil => intro ds fts tot; rfl
  | cons p rest ih =>
    intro ds fts tot
    obtain ⟨name, kind⟩ := p
    have hdet : detect_in_image_v3 env ⟨q, i, d⟩ img name kind =
        detect_in_image_v3 env ⟨q', i, d⟩ img name kind := rfl
    simp only [famLoop_v3, hdet]
    cases detect_in_image_v3 env ⟨q', i, d⟩ img name kind with
    | error m => rfl
    | ok r => exact ih _ _ _

/-- Claim C6: in the instrumented variant, for every processed image,
`total_detection_ms` equals the sum over the listed families of
`initialization_ms + detection_ms`; `image_load_ms` is the separate
load-phase measurement (non-negative whenever the measured duration is, as a
clock duration always is), and it is not included in `total_detection_ms`:
replacing the load measurement by any value changes only `image_load_ms`. -/
theorem claim_C6 (env : Env) (t : TimingOracle) (e : DirEntry)
    (r : TimedDetectionResult)
    (h : process_image_v3 env t e get_supported_families = Except.ok r) :
    r.timings.total_detection_ms =
      (r.timings.family_timings.map
        (fun ft => ft.initialization_ms + ft.detection_ms)).sum
    ∧ r.timings.image_load_ms = t.loadMs
    ∧ (0 ≤ t.loadMs → 0 ≤ r.timings.image_load_ms)
    ∧ ∀ q : ℚ,
        process_image_v3 env ⟨q, t.initMs, t.detectMs⟩ e get_supported_families =
          Except.ok { image := r.image, detections := r.detections
                      timings := { image_load_ms := q
                                   total_detection_ms := r.timings.total_detection_ms
                                   family_timings := r.timings.family_timings } } := by
  cases hload : env.loadRgb (entryFileName e) with
  | error m => simp [process_image_v3, hload] at h
  | ok rgb =>
    cases hgray : env.gray rgb with
    | error m => simp [process_image_v3, hload, hgray] at h
    | ok img =>
      simp only [process_image_v3, hload, hgray] at h
      cases hfl : famLoop_v3 env t img get_supported_families [] [] 0 with
      | error m => rw [hfl] at h; simp at h
      | ok trip =>
        obtain ⟨ds, fts, tot⟩ := trip
        rw [hfl] at h
        simp only [Except.ok.injEq] at h
        obtain ⟨F2, hF, hT⟩ :=
          famLoop_v3_spec env t img get_supported_families [] [] 0 ds fts tot hfl
        rw [← h]
        refine ⟨?_, rfl, ?_, ?_⟩
        · simp at hF
          rw [hT, hF]
          simp
        · intro hq; exact hq
        · intro q
          have hswap := famLoop_v3_loadMs env img q t.loadMs t.initMs t.detectMs
            get_supported_families [] [] 0
          simp only [process_image_v3, hload, hgray, hswap, hfl]

/-- A concrete timing oracle: 2 ms load, 1 ms initialization and 3 ms
detection for every family. -/
def t0 : TimingOracle := { loadMs := 2, initMs := fun _ => 1, detectMs := fun _ => 3 }

/-- The v3 result the all-ok environment produces for `photo.jpg` under
`t0` (falls back to a blank record on error; the run succeeds). -/
def c6result : TimedDetectionResult :=
  match process_image_v3 okEnv t0 jpgEntry get_supported_families with
  | Except.ok r => r
  | Except.error _ =>
      { image := "", detections := []
        timings := { image_load_ms := 0, total_detection_ms := 0, family_timings := [] } }

theorem claim_C6_witness :
    c6result.timings.total_detection_ms =
      (c6result.timings.family_timings.map
        (fun ft => ft.initialization_ms + ft.detection_ms)).sum
    ∧ 0 ≤ c6result.timings.image_load_ms
    ∧ process_image_v3 okEnv ⟨7, t0.initMs, t0.detectMs⟩ jpgEntry get_supported_families =
        Except.ok { image := c6result.image, detections := c6result.detections
                    timings := { image_load_ms := 7
                                 total_detection_ms := c6result.timings.total_detection_ms
                                 family_timings := c6result.timings.family_timings } } := by
  have h := claim_C6 okEnv t0 jpgEntry c6result (by rfl)
  exact ⟨h.1, h.2.2.1 (by norm_num [t0]), h.2.2.2 7⟩

theorem filter_len_zero (p : Event → Bool) :
    ∀ tr : List Event, (∀ ev ∈ tr, p ev = false) → (tr.filter p).length = 0 := by
  intro tr
  induction tr with
  | nil => intro _; rfl
  | cons a l ih =>
    intro h
    have ha := h a (List.mem_cons_self _ _)
    simp [List.filter_cons, ha, ih fun ev hev => h ev (List.mem_cons_of_mem _ hev)]

theorem filterMap_none (f : Event → Option String) :
    ∀ tr : List Event, (∀ ev ∈ tr, f ev = none) → tr.filterMap f = [] := by
  intro tr
  induction tr with
  | nil => intro _; rfl
  | cons a l ih =>
    intro h
    have ha := h a (List.mem_cons_self _ _)
    simp [List.filterMap_cons, ha, ih fun ev hev => h ev (List.mem_cons_of_mem _ hev)]

theorem process_image_v1_no_write (env : Env) (e : DirEntry)
    (fams : List (String × TagFamilyKind)) :
    ∀ ev ∈ (process_image_v1 env e fams).1,
      resultNameOf ev = none ∧ isManifestWrite ev = false := by
  intro ev hev
  cases hload : env.loadRgb (entryFileName e) with
  | error m =>
    simp [process_image_v1, hload] at hev
    subst hev; exact ⟨rfl, rfl⟩
  | ok rgb =>
    cases hgray : env.gray rgb with
    | error m =>
      simp [process_image_v1, hload, hgray] at hev
      subst hev; exact ⟨rfl, rfl⟩
    | ok img =>
      rw [process_image_v1_trace env e rgb img hload hgray fams] at hev
      simp [List.mem_cons] at hev
      rcases hev with rfl | rfl | hev
      · exact ⟨rfl, rfl⟩
      · exact ⟨rfl, rfl⟩
      · obtain ⟨n, rfl⟩ := detectLoop_v1_trace env img fams ev hev
        exact ⟨rfl, rfl⟩

theorem loop_v1_no_accepted (env : Env) (fams : List (String × TagFamilyKind)) :
    ∀ listing : List DirEntry, listing.filter accepts_v1 = [] →
      loop_v1 env fams listing = ([], Except.ok 0) := by
  intro listing
  induction listing with
  | nil => intro _; rfl
  | cons e rest ih =>
    intro h
    rw [List.filter_cons] at h
    cases hacc : accepts_v1 e with
    | true => rw [hacc] at h; simp at h
    | false =>
      rw [hacc, if_neg (by simp)] at h
      simp [loop_v1, hacc, ih h]

/-- The v1 image loop, when it returns Ok, counted exactly the accepted
entries, wrote exactly one `<stem>.json` result per accepted entry in
listing order, and wrote no manifest. -/
theorem loop_v1_ok_spec (env : Env) (fams : List (String × TagFamilyKind)) :
    ∀ (listing : List DirEntry) (tr : List Event) (n : Nat),
      loop_v1 env fams listing = (tr, Except.ok n) →
      n = (listing.filter accepts_v1).length
      ∧ resultWriteNames tr =
          (listing.filter accepts_v1).map (fun e => e.stem ++ ".json")
      ∧ manifestWriteCount tr = 0 := by
  intro listing
  induction listing with
  | nil =>
    intro tr n h
    simp [loop_v1] at h
    rw [h.1, ← h.2]
    exact ⟨rfl, rfl, rfl⟩
  | cons e rest ih =>
    intro tr n h
    cases hacc : accepts_v1 e with
    | false =>
      rw [loop_v1, if_neg (by simp [hacc])] at h
      rw [List.filter_cons, hacc]
      simpa using ih tr n h
    | true =>
      rw [loop_v1, if_pos (by simp [hacc])] at h
      cases hpi : process_image_v1 env e fams with
      | mk trP resP =>
        rw [hpi] at h
        cases resP with
        | error m => simp at h
        | ok result =>
          cases hrec : loop_v1 env fams rest with
          | mk tr2 res2 =>
            rw [hrec] at h
            cases res2 with
            | error m => simp at h
            | ok n2 =>
              simp at h
              obtain ⟨htr, hn⟩ := h
              obtain ⟨hn2, hnames, hmani⟩ := ih tr2 n2 hrec
              have hPnames : resultWriteNames trP = [] := by
                apply filterMap_none
                intro ev hev
                exact (process_image_v1_no_write env e fams ev (by rw [hpi]; exact hev)).1
              have hPmani : manifestWriteCount trP = 0 := by
                apply filter_len_zero
                intro ev hev
                exact (process_image_v1_no_write env e fams ev (by rw [hpi]; exact hev)).2
              refine ⟨?_, ?_, ?_⟩
              · rw [← hn, hn2, List.filter_cons, hacc]; simp
              · rw [← htr, List.filter_cons, hacc]
                simp only [resultWriteNames, List.filterMap_append, List.filterMap_cons] at hPnames ⊢
                rw [hPnames]
                simp [resultNameOf, resultWriteNames] at hnames ⊢
                rw [hnames]
              · rw [← htr]
                simp only [manifestWriteCount, List.filter_append, List.filter_cons,
                  List.length_append] at hPmani hmani ⊢
                simp [isManifestWrite, hPmani, hmani]

/-- The v1 run, when it returns Ok, reports the accepted count, has written
one result file per accepted entry, and has written the manifest exactly
once (after the loop). -/
theorem run_v1_ok_spec (env : Env) (listing : List DirEntry) (tr : List Event)
    (n : Nat) (h : run_v1 env listing = (tr, Except.ok n)) :
    n = (listing.filter accepts_v1).length
    ∧ resultWriteNames tr =
        (listing.filter accepts_v1).map (fun e => e.stem ++ ".json")
    ∧ manifestWriteCount tr = 1 := by
  unfold run_v1 at h
  cases hl : loop_v1 env get_supported_families listing with
  | mk trL resL =>
    rw [hl] at h
    cases resL with
    | error m => simp at h
    | ok nL =>
      simp at h
      obtain ⟨htr, hn⟩ := h
      obtain ⟨hnL, hnames, hmani⟩ := loop_v1_ok_spec env get_supported_families listing trL nL hl
      refine ⟨by rw [← hn, hnL], ?_, ?_⟩
      · rw [← htr]
        simp only [resultWriteNames, List.filterMap_append, List.filterMap_cons,
          List.filterMap_nil] at hnames ⊢
        simp [resultNameOf, resultWriteNames] at hnames ⊢
        rw [hnames]
      · rw [← htr]
        simp only [manifestWriteCount, List.filter_append, List.length_append] at hmani ⊢
        simp [List.filter_cons, isManifestWrite, hmani, manifestWriteCount]

theorem detect_in_image_v2_no_write (env : Env) (file : String)
    (kind : TagFamilyKind) (size : ImageSize) :
    ∀ ev ∈ (detect_in_image_v2 env file kind size).1,
      resultNameOf ev = none ∧ isManifestWrite ev = false
      ∧ (isMakeIntensity ev = true → ∃ img, ev = Event.makeIntensity file img) := by
  intro ev hev
  cases hload : env.loadRgb file with
  | error m =>
    simp [detect_in_image_v2, hload] at hev
    subst hev; exact ⟨rfl, rfl, by intro h; simp [isMakeIntensity] at h⟩
  | ok rgb =>
    cases hgray : env.gray rgb with
    | error m =>
      simp [detect_in_image_v2, hload, hgray] at hev
      subst hev; exact ⟨rfl, rfl, by intro h; simp [isMakeIntensity] at h⟩
    | ok img =>
      cases hdec : env.decode kind size img with
      | error m =>
        simp [detect_in_image_v2, hload, hgray, hdec, List.mem_cons] at hev
        rcases hev with rfl | rfl | rfl
        · exact ⟨rfl, rfl, by intro h; simp [isMakeIntensity] at h⟩
        · exact ⟨rfl, rfl, fun _ => ⟨img, rfl⟩⟩
        · exact ⟨rfl, rfl, by intro h; simp [isMakeIntensity] at h⟩
      | ok dets =>
        simp [detect_in_image_v2, hload, hgray, hdec, List.mem_cons] at hev
        rcases hev with rfl | rfl | rfl
        · exact ⟨rfl, rfl, by intro h; simp [isMakeIntensity] at h⟩
        · exact ⟨rfl, rfl, fun _ => ⟨img, rfl⟩⟩
        · exact ⟨rfl, rfl, by intro h; simp [isMakeIntensity] at h⟩

theorem famLoop_v2_no_write (env : Env) (file : String) (size : ImageSize) :
    ∀ fams : List (String × TagFamilyKind),
    ∀ ev ∈ (famLoop_v2 env file size fams).1,
      resultNameOf ev = none ∧ isManifestWrite ev = false := by
  intro fams
  induction fams with
  | nil => intro ev hev; simp [famLoop_v2] at hev
  | cons p rest ih =>
    intro ev hev
    obtain ⟨name, kind⟩ := p
    simp only [famLoop_v2] at hev
    cases hdet : detect_in_image_v2 env file kind size with
    | mk trD resD =>
      rw [hdet] at hev
      have hD : ∀ ev ∈ trD, resultNameOf ev = none ∧ isManifestWrite ev = false := by
        intro ev2 hev2
        have := detect_in_image_v2_no_write env file kind size ev2 (by rw [hdet]; exact hev2)
        exact ⟨this.1, this.2.1⟩
      cases resD with
      | error m => exact hD ev hev
      | ok dets =>
        cases hfl : famLoop_v2 env file size rest with
        | mk tr2 res2 =>
          rw [hfl] at hev
          cases res2 with
          | error m =>
            rcases List.mem_append.mp hev with hmem | hmem
            · exact hD ev hmem
            · exact ih ev (by rw [hfl]; exact hmem)
          | ok tail =>
            rcases List.mem_append.mp hev with hmem | hmem
            · exact hD ev hmem
            · exact ih ev (by rw [hfl]; exact hmem)

theorem imgLoop_v2_no_write (env : Env) (size : ImageSize)
    (fams : List (String × TagFamilyKind)) :
    ∀ paths : List DirEntry,
    ∀ ev ∈ (imgLoop_v2 env size fams paths).1,
      resultNameOf ev = none ∧ isManifestWrite ev = false := by
  intro paths
  induction paths with
  | nil => intro ev hev; simp [imgLoop_v2] at hev
  | cons e rest ih =>
    intro ev hev
    simp only [imgLoop_v2] at hev
    cases hfl : famLoop_v2 env (entryFileName e) size fams with
    | mk trF resF =>
      rw [hfl] at hev
      have hF : ∀ ev2 ∈ trF, resultNameOf ev2 = none ∧ isManifestWrite ev2 = false := by
        intro ev2 hev2
        exact famLoop_v2_no_write env (entryFileName e) size fams ev2 (by rw [hfl]; exact hev2)
      cases resF with
      | error m => exact hF ev hev
      | ok dets =>
        cases hil : imgLoop_v2 env size fams rest with
        | mk tr2 res2 =>
          rw [hil] at hev
          cases res2 with
          | error m =>
            rcases List.mem_append.mp hev with hmem | hmem
            · exact hF ev hmem
            · exact ih ev (by rw [hil]; exact hmem)
          | ok tail =>
            rcases List.mem_append.mp hev with hmem | hmem
            · exact hF ev hmem
            · exact ih ev (by rw [hil]; exact hmem)

theorem imgLoop_v2_ok_fst (env : Env) (size : ImageSize)
    (fams : List (String × TagFamilyKind)) :
    ∀ (paths : List DirEntry) (tr : List Event)
      (pairs : List (DirEntry × List Detection)),
      imgLoop_v2 env size fams paths = (tr, Except.ok pairs) →
      pairs.map Prod.fst = paths := by
  intro paths
  induction paths with
  | nil =>
    intro tr pairs h
    simp [imgLoop_v2] at h
    rw [h.2]; rfl
  | cons e rest ih =>
    intro tr pairs h
    simp only [imgLoop_v2] at h
    cases hfl : famLoop_v2 env (entryFileName e) size fams with
    | mk trF resF =>
      rw [hfl] at h
      cases resF with
      | error m => simp at h
      | ok dets =>
        cases hil : imgLoop_v2 env size fams rest with
        | mk tr2 res2 =>
          rw [hil] at h
          cases res2 with
          | error m => simp at h
          | ok tail =>
            simp at h
            rw [← h.2]
            simp [ih tr2 tail hil]

/-- The v2 writing phase writes exactly one `<stem>.json` result per
collected image, in order, counts them all, and writes no manifest. -/
theorem writeLoop_v2_spec :
    ∀ pairs : List (DirEntry × List Detection),
      (writeLoop_v2 pairs).2 = pairs.length
      ∧ resultWriteNames (writeLoop_v2 pairs).1 =
          pairs.map (fun pr => pr.1.stem ++ ".json")
      ∧ manifestWriteCount (writeLoop_v2 pairs).1 = 0 := by
  intro pairs
  induction pairs with
  | nil => exact ⟨rfl, rfl, rfl⟩
  | cons pr rest ih =>
    obtain ⟨e, dets⟩ := pr
    cases hw : writeLoop_v2 rest with
    | mk tr nn =>
      rw [hw] at ih
      refine ⟨?_, ?_, ?_⟩
      · simp [writeLoop_v2, hw, ih.1]
      · simp only [writeLoop_v2, hw, resultWriteNames, List.filterMap_cons] at ih ⊢
        simp [resultNameOf, ih.2.1]
      · simp only [writeLoop_v2, hw, manifestWriteCount, List.filter_cons] at ih ⊢
        simp [isManifestWrite, ih.2.2]

/-- The v2 run, when it returns Ok: the reported count equals the accepted
count; when nothing was accepted the run wrote nothing at all (no result
files and no manifest); otherwise it wrote one `<stem>.json` per accepted
entry and the manifest exactly once. -/
theorem run_v2_ok_spec (env : Env) (listing : List DirEntry) (tr : List Event)
    (n : Nat) (h : run_v2 env listing = (tr, Except.ok n)) :
    n = (listing.filter accepts_v2).length
    ∧ resultWriteNames tr =
        (listing.filter accepts_v2).map (fun e => e.stem ++ ".json")
    ∧ manifestWriteCount tr =
        (if listing.filter accepts_v2 = [] then 0 else 1) := by
  unfold run_v2 at h
  split at h
  · rename_i hfilt
    rw [hfilt]
    simp at h
    rw [h.1, ← h.2]
    exact ⟨rfl, rfl, rfl⟩
  · rename_i e0 restPaths hfilt
    rw [hfilt]
    split at h
    · simp at h
    · rename_i rgb0 hload
      split at h
      · simp at h
      · rename_i tri pairs himl
        cases hwl : writeLoop_v2 pairs with
        | mk wtr nw =>
          rw [hwl] at h
          simp at h
          obtain ⟨htr, hn⟩ := h
          have hfst := imgLoop_v2_ok_fst env ⟨rgb0.width, rgb0.height⟩
            get_supported_families (e0 :: restPaths) tri pairs himl
          have hws := writeLoop_v2_spec pairs
          rw [hwl] at hws
          simp only at hws
          have hinames : resultWriteNames tri = [] := by
            apply filterMap_none
            intro ev hev
            exact (imgLoop_v2_no_write env ⟨rgb0.width, rgb0.height⟩
              get_supported_families (e0 :: restPaths) ev (by rw [himl]; exact hev)).1
          have himani : manifestWriteCount tri = 0 := by
            apply filter_len_zero
            intro ev hev
            exact (imgLoop_v2_no_write env ⟨rgb0.width, rgb0.height⟩
              get_supported_families (e0 :: restPaths) ev (by rw [himl]; exact hev)).2
          refine ⟨?_, ?_, ?_⟩
          · rw [← hn, hws.1, ← hfst]
            simp
          · rw [← htr]
            simp only [resultWriteNames, List.filterMap_cons, List.filterMap_append,
              List.filterMap_nil] at hinames hws ⊢
            simp [resultNameOf, hinames, hws.2.1, ← hfst, List.map_map]
          · rw [← htr]
            simp only [manifestWriteCount, List.filter_cons, List.filter_append,
              List.length_append] at himani hws ⊢
            simp [isManifestWrite, himani, hws.2.2]

/-- Claim C2, as amended: on an existing input directory with zero accepted
images, the v1 variant writes zero result files, still writes
`manifest.json` with the full family list, and exits 0; the v2
(centred-coordinates) and v3 (linefit) variants instead return early and
exit 0 without writing anything — not even the manifest.  On every
successful v1 run the manifest is written exactly once, and on every
successful v2 run it is written exactly once unless no image was accepted,
in which case it is not written at all. -/
theorem claim_C2 :
    (∀ (env : Env) (listing : List DirEntry),
      listing.filter accepts_v1 = [] →
      run_v1 env listing =
        ([Event.write "manifest.json"
            (FileContent.manifest { supported_families := supported_family_names })],
         Except.ok 0))
    ∧ (∀ (env : Env) (listing : List DirEntry),
      listing.filter accepts_v2 = [] → run_v2 env listing = ([], Except.ok 0))
    ∧ (∀ (env : Env) (t : TimingOracle) (listing : List DirEntry),
      listing.filter accepts_v3 = [] → run_v3 env t listing = ([], Except.ok 0))
    ∧ (∀ (env : Env) (listing : List DirEntry) (tr : List Event) (n : Nat),
      run_v1 env listing = (tr, Except.ok n) → manifestWriteCount tr = 1)
    ∧ (∀ (env : Env) (listing : List DirEntry) (tr : List Event) (n : Nat),
      run_v2 env listing = (tr, Except.ok n) →
      manifestWriteCount tr = (if listing.filter accepts_v2 = [] then 0 else 1)) := by
  refine ⟨?_, ?_, ?_, ?_, ?_⟩
  · intro env listing hf
    simp [run_v1, loop_v1_no_accepted env get_supported_families listing hf]
  · intro env listing hf
    simp [run_v2, hf]
  · intro env t listing hf
    simp [run_v3, hf]
  · intro env listing tr n h
    exact (run_v1_ok_spec env listing tr n h).2.2
  · intro env listing tr n h
    exact (run_v2_ok_spec env listing tr n h).2.2

/-- Claim C2 counterexample: in the v2 (centred-coordinates) variant, a run
over an existing input directory with zero accepted images exits 0 but does
NOT write `manifest.json` — the claimed "manifest is still written /
written exactly once per batch run regardless of which images were present"
fails on this variant, which returns early with no writes at all. -/
theorem claim_C2_counterexample :
    run_v2 okEnv [] = ([], Except.ok 0)
    ∧ manifestWriteCount (run_v2 okEnv []).1 = 0
    ∧ exitCode (run_v2 okEnv []).2 = 0 :=
  ⟨rfl, rfl, rfl⟩

theorem claim_C2_witness :
    run_v1 okEnv [] =
      ([Event.write "manifest.json"
          (FileContent.manifest { supported_families := supported_family_names })],
       Except.ok 0)
    ∧ run_v3 okEnv t0 [] = ([], Except.ok 0)
    ∧ manifestWriteCount (run_v1 okEnv [jpgEntry]).1 = 1
    ∧ manifestWriteCount (run_v2 okEnv [jpgEntry]).1 =
        (if ([jpgEntry] : List DirEntry).filter accepts_v2 = [] then 0 else 1) :=
  ⟨claim_C2.1 okEnv [] rfl,
   claim_C2.2.2.1 okEnv t0 [] rfl,
   claim_C2.2.2.2.1 okEnv [jpgEntry] (run_v1 okEnv [jpgEntry]).1 1 (by decide),
   claim_C2.2.2.2.2 okEnv [jpgEntry] (run_v2 okEnv [jpgEntry]).1 1 (by decide)⟩

/-- Claim C5, as amended: for every run that completes successfully, the
reported processed count equals the number of accepted files, and the run
performs exactly one result-write per accepted file, targeting
`<stem>.json` in listing order.  Because the target name depends only on
the stem, two accepted files that differ only in extension target the SAME
output file, so the number of distinct output files on disk can be smaller
than the number of accepted files (it equals the number of distinct stems);
the claim's "number of output JSON files written equals the number of
accepted files" holds for write operations, not for distinct files. -/
theorem claim_C5 :
    (∀ (env : Env) (listing : List DirEntry) (tr : List Event) (n : Nat),
      run_v1 env listing = (tr, Except.ok n) →
      n = (listing.filter accepts_v1).length
      ∧ resultWriteNames tr =
          (listing.filter accepts_v1).map (fun e => e.stem ++ ".json"))
    ∧ (∀ (env : Env) (listing : List DirEntry) (tr : List Event) (n : Nat),
      run_v2 env listing = (tr, Except.ok n) →
      n = (listing.filter accepts_v2).length
      ∧ resultWriteNames tr =
          (listing.filter accepts_v2).map (fun e => e.stem ++ ".json")) := by
  constructor
  · intro env listing tr n h
    exact ⟨(run_v1_ok_spec env listing tr n h).1,
           (run_v1_ok_spec env listing tr n h).2.1⟩
  · intro env listing tr n h
    exact ⟨(run_v2_ok_spec env listing tr n h).1,
           (run_v2_ok_spec env listing tr n h).2.1⟩

/-- Claim C5 counterexample: with `photo.jpg` and `photo.png` both accepted,
the v1 run succeeds reporting 2 processed, but both writes target the single
file `photo.json`, so only one distinct output JSON file exists — not one
per accepted image file. -/
theorem claim_C5_counterexample :
    (run_v1 emptyEnv [jpgEntry, pngEntry]).2 = Except.ok 2
    ∧ (([jpgEntry, pngEntry] : List DirEntry).filter accepts_v1).length = 2
    ∧ (resultWriteNames (run_v1 emptyEnv [jpgEntry, pngEntry]).1).dedup =
        ["photo.json"] :=
  ⟨by decide, by decide, by decide⟩

theorem claim_C5_witness :
    (1 : Nat) = (([jpgEntry] : List DirEntry).filter accepts_v1).length
    ∧ resultWriteNames (run_v1 okEnv [jpgEntry]).1 =
        (([jpgEntry] : List DirEntry).filter accepts_v1).map
          (fun e => e.stem ++ ".json") :=
  claim_C5.1 okEnv [jpgEntry] (run_v1 okEnv [jpgEntry]).1 1 (by decide)

/-- The content a reader of the output directory finds under `name` after a
run: the last write to that name wins (whole-file replacement). -/
def lastWriteTo (tr : List Event) (name : String) : Option FileContent :=
  (tr.filterMap fun ev =>
    match ev with
    | Event.write n c => if n == name then some c else none
    | _ => none).getLast?

/-- Claim C10: the per-image output path depends only on the source file's
stem.  With `photo.jpg` and `photo.png` both in the input directory, the v1
run writes `photo.json` twice; the write for `photo.png` (processed later)
silently overwrites the one for `photo.jpg`; the run reports 2 images
processed and exits 0 with no error. -/
theorem claim_C10 :
    (run_v1 emptyEnv [jpgEntry, pngEntry]).2 = Except.ok 2
    ∧ exitCode (run_v1 emptyEnv [jpgEntry, pngEntry]).2 = 0
    ∧ resultWriteNames (run_v1 emptyEnv [jpgEntry, pngEntry]).1 =
        ["photo.json", "photo.json"]
    ∧ lastWriteTo (run_v1 emptyEnv [jpgEntry, pngEntry]).1 "photo.json" =
        some (FileContent.result { image := "photo.png", detections := [] }) :=
  ⟨by decide, by decide, by decide, by decide⟩

/-- If processing some accepted entry of the listing fails, the v1 image
loop ends in an error. -/
theorem loop_v1_err_of_mem (env : Env) (e : DirEntry) (msg : String)
    (hacc : accepts_v1 e = true)
    (herr : (process_image_v1 env e get_supported_families).2 = Except.error msg) :
    ∀ listing : List DirEntry, e ∈ listing →
      ∃ m2, (loop_v1 env get_supported_families listing).2 = Except.error m2 := by
  intro listing
  induction listing with
  | nil => intro h; simp at h
  | cons a l ih =>
    intro hmem
    rcases List.mem_cons.mp hmem with rfl | hmem2
    · have hpair : process_image_v1 env e get_supported_families =
          ((process_image_v1 env e get_supported_families).1, Except.error msg) := by
        rw [← herr]
      refine ⟨msg, ?_⟩
      rw [loop_v1, if_pos (by simp [hacc]), hpair]
    · cases haccA : accepts_v1 a with
      | false =>
        obtain ⟨m2, hm2⟩ := ih hmem2
        exact ⟨m2, by rw [loop_v1, if_neg (by simp [haccA])]; exact hm2⟩
      | true =>
        obtain ⟨m2, hm2⟩ := ih hmem2
        cases hpi : process_image_v1 env a get_supported_families with
        | mk trA resA =>
          cases resA with
          | error mA =>
            exact ⟨mA, by rw [loop_v1, if_pos (by simp [haccA]), hpi]⟩
          | ok resultA =>
            cases hl : loop_v1 env get_supported_families l with
            | mk trL resL =>
              rw [hl] at hm2
              cases resL with
              | ok nL => simp at hm2
              | error mL =>
                refine ⟨mL, ?_⟩
                rw [loop_v1, if_pos (by simp [haccA]), hpi, hl]

/-- A failing image loop makes the v1 run fail with the same error. -/
theorem run_v1_err (env : Env) (listing : List DirEntry) (m : String)
    (h : (loop_v1 env get_supported_families listing).2 = Except.error m) :
    (run_v1 env listing).2 = Except.error m := by
  unfold run_v1
  cases hl : loop_v1 env get_supported_families listing with
  | mk tr res =>
    rw [hl] at h
    cases res with
    | ok nL => simp at h
    | error mm => simp at h; rw [h]

/-- Claim C7: a failure to load or convert an accepted image, or a family's
decode failure, propagates: `process_image` stops at the failing call; the
batch loop stops at the failing file without writing anything for it or
touching later files; and the whole run exits non-zero. -/
theorem claim_C7 :
    (∀ (env : Env) (e : DirEntry) (fams : List (String × TagFamilyKind)) (msg : String),
      env.loadRgb (entryFileName e) = Except.error msg →
      process_image_v1 env e fams =
        ([Event.loadRgb (entryFileName e)], Except.error "Failed to load image"))
    ∧ (∀ (env : Env) (img : IntensityImage) (name : String) (kind : TagFamilyKind)
        (rest : List (String × TagFamilyKind)) (msg : String),
      env.decode kind ⟨img.width, img.height⟩ img = Except.error msg →
      detectLoop_v1 env img ((name, kind) :: rest) =
        ([Event.decodeCall name ⟨img.width, img.height⟩ img],
         Except.error ("Failed to decode tags for family " ++ name)))
    ∧ (∀ (env : Env) (e : DirEntry) (rest : List DirEntry) (msg : String),
      accepts_v1 e = true →
      (process_image_v1 env e get_supported_families).2 = Except.error msg →
      run_v1 env (e :: rest) =
        ((process_image_v1 env e get_supported_families).1, Except.error msg)
      ∧ resultWriteNames (process_image_v1 env e get_supported_families).1 = [])
    ∧ (∀ (env : Env) (listing : List DirEntry),
      (∃ e ∈ listing, accepts_v1 e = true
        ∧ ∃ msg, (process_image_v1 env e get_supported_families).2 = Except.error msg) →
      exitCode (run_v1 env listing).2 = 1) := by
  refine ⟨?_, ?_, ?_, ?_⟩
  · intro env e fams msg h
    simp [process_image_v1, h]
  · intro env img name kind rest msg h
    simp [detectLoop_v1, h]
  · intro env e rest msg hacc herr
    have hpair : process_image_v1 env e get_supported_families =
        ((process_image_v1 env e get_supported_families).1, Except.error msg) := by
      rw [← herr]
    constructor
    · rw [run_v1, loop_v1, if_pos (by simp [hacc]), hpair]
    · apply filterMap_none
      intro ev hev
      exact (process_image_v1_no_write env e get_supported_families ev hev).1
  · intro env listing h
    obtain ⟨e, hmem, hacc, msg, herr⟩ := h
    obtain ⟨m2, hm2⟩ := loop_v1_err_of_mem env e msg hacc herr listing hmem
    rw [run_v1_err env listing m2 hm2]
    rfl

/-- An environment whose decoder fails on the first registry family. -/
def failEnv : Env :=
  { loadRgb := fun _ => Except.ok { width := 1, height := 1, data := [0] }
    gray := fun _ => Except.ok { width := 1, height := 1, data := [0] }
    decode := fun kind _ _ =>
      match kind with
      | TagFamilyKind.Tag36H11 => Except.error "internal decoder error"
      | _ => Except.ok [] }

/-- An environment whose image reader always fails. -/
def badLoadEnv : Env :=
  { loadRgb := fun _ => Except.error "unreadable file"
    gray := fun _ => Except.ok { width := 1, height := 1, data := [0] }
    decode := fun _ _ _ => Except.ok [] }

theorem claim_C7_witness :
    process_image_v1 badLoadEnv jpgEntry get_supported_families =
      ([Event.loadRgb "photo.jpg"], Except.error "Failed to load image")
    ∧ detectLoop_v1 failEnv { width := 1, height := 1, data := [0] }
        get_supported_families =
        ([Event.decodeCall "tag36h11" { width := 1, height := 1 }
            { width := 1, height := 1, data := [0] }],
         Except.error "Failed to decode tags for family tag36h11")
    ∧ run_v1 failEnv [jpgEntry, pngEntry] =
        ((process_image_v1 failEnv jpgEntry get_supported_families).1,
         Except.error "Failed to decode tags for family tag36h11")
    ∧ exitCode (run_v1 failEnv [jpgEntry, pngEntry]).2 = 1 := by
  refine ⟨?_, ?_, ?_, ?_⟩
  · exact claim_C7.1 badLoadEnv jpgEntry get_supported_families "unreadable file" rfl
  · exact claim_C7.2.1 failEnv { width := 1, height := 1, data := [0] }
      "tag36h11" TagFamilyKind.Tag36H11 (get_supported_families.drop 1)
      "internal decoder error" rfl
  · exact (claim_C7.2.2.1 failEnv jpgEntry [pngEntry]
      "Failed to decode tags for family tag36h11" (by decide) (by decide)).1
  · exact claim_C7.2.2.2 failEnv [jpgEntry, pngEntry]
      ⟨jpgEntry, by decide, by decide,
       "Failed to decode tags for family tag36h11", by decide⟩

/-- v1's negated filter test accepts exactly the same entries as v2's
positive one. -/
theorem accepts_v1_eq_v2 (e : DirEntry) : accepts_v1 e = accepts_v2 e := by
  unfold accepts_v1 accepts_v2
  cases hj : entryExt e == "jpg" <;> cases he2 : entryExt e == "jpeg" <;>
    cases hp : entryExt e == "png" <;> simp [bne, hj, he2, hp]

/-- Claim C8: only regular files whose lowercased extension is in the
accepted set are processed — {jpg, jpeg, png} for v1/v2, {jpg, jpeg} for
the instrumented v3 — with a case-insensitive match; any other direct entry
(wrong extension, or not a regular file) is silently skipped: it produces
no event, no count and no error, and the loop continues with the rest. -/
theorem claim_C8 :
    (∀ e : DirEntry, accepts_v1 e = true ↔
      (e.isFile = true ∧ entryExt e ∈ (["jpg", "jpeg", "png"] : List String)))
    ∧ (∀ e : DirEntry, accepts_v3 e = true ↔
      (e.isFile = true ∧ entryExt e ∈ (["jpg", "jpeg"] : List String)))
    ∧ (∀ (env : Env) (fams : List (String × TagFamilyKind)) (e : DirEntry)
        (rest : List DirEntry), accepts_v1 e = false →
        loop_v1 env fams (e :: rest) = loop_v1 env fams rest)
    ∧ (∀ (env : Env) (t : TimingOracle) (e : DirEntry) (listing : List DirEntry),
        accepts_v3 e = false →
        run_v3 env t (e :: listing) = run_v3 env t listing)
    ∧ accepts_v1 { stem := "a", ext := some "JPG", isFile := true } = true
    ∧ accepts_v1 { stem := "a", ext := some "bmp", isFile := true } = false
    ∧ accepts_v1 { stem := "a", ext := some "jpg", isFile := false } = false
    ∧ accepts_v3 pngEntry = false := by
  refine ⟨?_, ?_, ?_, ?_, by decide, by decide, by decide, by decide⟩
  · intro e
    rw [accepts_v1_eq_v2]
    simp [accepts_v2, List.mem_cons, Bool.and_eq_true, Bool.or_eq_true, beq_iff_eq,
      or_assoc]
  · intro e
    simp [accepts_v3, List.mem_cons, Bool.and_eq_true, Bool.or_eq_true, beq_iff_eq]
  · intro env fams e rest h
    rw [loop_v1, if_neg (by simp [h])]
  · intro env t e listing h
    unfold run_v3
    rw [List.filter_cons, if_neg (by simp [h])]

theorem claim_C8_witness :
    (accepts_v1 jpgEntry = true ↔
      (jpgEntry.isFile = true ∧ entryExt jpgEntry ∈ (["jpg", "jpeg", "png"] : List String)))
    ∧ loop_v1 okEnv get_supported_families
        [{ stem := "b", ext := some "bmp", isFile := true }] =
        loop_v1 okEnv get_supported_families []
    ∧ run_v3 okEnv t0 [{ stem := "d", ext := none, isFile := false }] =
        run_v3 okEnv t0 [] :=
  ⟨claim_C8.1 jpgEntry,
   claim_C8.2.2.1 okEnv get_supported_families
     { stem := "b", ext := some "bmp", isFile := true } [] (by decide),
   claim_C8.2.2.2.1 okEnv t0 { stem := "d", ext := none, isFile := false } [] (by decide)⟩

/-- Claim C9, as amended: in v1 (and v3, which loads once per image and
passes the buffer by reference) exactly one IntensityImage is created per
processed image — one load plus one conversion — and every decode call for
that image reads that same buffer.  In v2, however, `detect_in_image`
reloads and reconverts the file itself, so one IntensityImage is created
per (image, family) invocation, not per image. -/
theorem claim_C9 :
    (∀ (env : Env) (e : DirEntry) (fams : List (String × TagFamilyKind))
       (rgb : RgbImage) (img : IntensityImage),
       env.loadRgb (entryFileName e) = Except.ok rgb →
       env.gray rgb = Except.ok img →
       mkIntCount (process_image_v1 env e fams).1 = 1
       ∧ ∀ (name : String) (size : ImageSize) (i : IntensityImage),
           Event.decodeCall name size i ∈ (process_image_v1 env e fams).1 → i = img)
    ∧ (∀ (env : Env) (file : String) (kind : TagFamilyKind) (size : ImageSize)
         (rgb : RgbImage) (img : IntensityImage),
         env.loadRgb file = Except.ok rgb →
         env.gray rgb = Except.ok img →
         mkIntCount (detect_in_image_v2 env file kind size).1 = 1) := by
  constructor
  · intro env e fams rgb img hload hgray
    rw [process_image_v1_trace env e rgb img hload hgray fams]
    constructor
    · have h0 : ((detectLoop_v1 env img fams).1.filter isMakeIntensity).length = 0 := by
        apply filter_len_zero
        intro ev hev
        obtain ⟨n, rfl⟩ := detectLoop_v1_trace env img fams ev hev
        rfl
      simp only [mkIntCount, List.filter_cons] at h0 ⊢
      simp [isMakeIntensity, mkIntCount, h0]
    · intro name size i hmem
      simp only [List.mem_cons] at hmem
      rcases hmem with h | h | h
      · simp at h
      · simp at h
      · obtain ⟨n, heq⟩ := detectLoop_v1_trace env img fams _ h
        injection heq with h1 h2 h3
  · intro env file kind size rgb img hload hgray
    cases hdec : env.decode kind size img with
    | error m =>
      simp [detect_in_image_v2, hload, hgray, hdec, mkIntCount,
        List.filter_cons, isMakeIntensity]
    | ok dets =>
      simp [detect_in_image_v2, hload, hgray, hdec, mkIntCount,
        List.filter_cons, isMakeIntensity]

/-- Claim C9 counterexample: in the v2 (centred-coordinates) variant, a run
over the single image `photo.jpg` succeeds with 1 image processed, yet NINE
intensity buffers are created for it — one per family invocation — not
exactly one per image as claimed. -/
theorem claim_C9_counterexample :
    (run_v2 okEnv [jpgEntry]).2 = Except.ok 1
    ∧ mkIntCount (run_v2 okEnv [jpgEntry]).1 = 9
    ∧ (9 : Nat) ≠ 1 :=
  ⟨by decide, by decide, by decide⟩

theorem claim_C9_witness :
    mkIntCount (process_image_v1 okEnv jpgEntry get_supported_families).1 = 1
    ∧ mkIntCount (detect_in_image_v2 okEnv "photo.jpg" TagFamilyKind.Tag36H11
        { width := 1, height := 1 }).1 = 1 :=
  ⟨(claim_C9.1 okEnv jpgEntry get_supported_families
      { width := 1, height := 1, data := [0] }
      { width := 1, height := 1, data := [0] } rfl rfl).1,
   claim_C9.2 okEnv "photo.jpg" TagFamilyKind.Tag36H11 { width := 1, height := 1 }
      { width := 1, height := 1, data := [0] }
      { width := 1, height := 1, data := [0] } rfl rfl⟩
